import Mathlib

/-!
Verification of the coaching-advice verification layer of the EsportsCoach
repository (`src/client/src/components/SignupPage.tsx`, class `CoachingVerifier`
and the `COACHING_SYLLABUS` table).

Embedding conventions:
* JavaScript strings are Lean `String`s; `a.includes(b)` is `includes a b`
  (substring search over the character lists).
* `Record<string, string>` objects are association lists in insertion order,
  matching JavaScript map-iteration order for string keys.
* JavaScript numbers involved in confidence arithmetic are modelled as `Rat`;
  every value that occurs is a small-denominator rational on which the
  floating-point comparisons of the source agree with exact arithmetic.
* The mutable `sessionErrors` field is explicit state: `verifyAdvice` takes a
  `CoachingVerifier` and returns the verdict with the updated verifier.
  The timestamp string produced by `new Date().toISOString()` inside
  `logError` is passed in as the `now` argument; the wall clock read by
  `Date.now()` inside `validateTimeSensitivity` is the `now` argument there.
* The `gameContext?: any` parameter is a value of an arbitrary type `α`
  (optional, hence `Option α`); the method body never reads it.
-/

/-- JavaScript `s.toLowerCase()` on the ASCII strings of this component:
lowercase every character. -/
def toLower (s : String) : String :=
  ⟨s.data.map Char.toLower⟩

/-- `hay.includes needle` on character lists: does `needle` occur as a
contiguous run inside `hay`?  Helper for `includes`. -/
def listContains (needle : List Char) : List Char → Bool
  | [] => needle.isEmpty
  | c :: rest => needle.isPrefixOf (c :: rest) || listContains needle rest

/-- JavaScript `s.includes(pat)`: `pat` occurs as a substring of `s`. -/
def includes (s pat : String) : Bool :=
  listContains pat.toList s.toList

/-- `interface CoachingPrinciple` from the source. -/
structure CoachingPrinciple where
  category : String
  keywords : List String
  validAdvice : List String
  invalidPatterns : List String
  corrections : List (String × String)
deriving DecidableEq, Repr

/-- `COACHING_SYLLABUS.moba[0]`. -/
def mobaPositioning : CoachingPrinciple :=
  { category := "positioning"
    keywords := ["position", "map", "ward", "vision", "safe", "engage"]
    validAdvice := ["Stay behind minions", "Ward river bushes",
      "Position for objectives", "Maintain safe distance", "Group with team"]
    invalidPatterns := ["always engage", "never retreat", "ignore map"]
    corrections := [("engage without vision", "Ward before engaging"),
      ("chase kills", "Focus on objectives")] }

/-- `COACHING_SYLLABUS.moba[1]`. -/
def mobaItemization : CoachingPrinciple :=
  { category := "itemization"
    keywords := ["item", "build", "buy", "gold", "shop", "upgrade"]
    validAdvice := ["Build armor against AD", "Buy magic resist",
      "Prioritize core items", "Ward instead of damage"]
    invalidPatterns := ["always same build", "ignore enemy comp"]
    corrections := [("build same every game", "Adapt to enemy composition")] }

/-- `COACHING_SYLLABUS.moba[2]`. -/
def mobaTeamfight : CoachingPrinciple :=
  { category := "teamfight"
    keywords := ["fight", "team", "engage", "disengage", "focus", "target"]
    validAdvice := ["Focus carry targets", "Protect your ADC",
      "Wait for initiation", "Disengage when low"]
    invalidPatterns := ["fight without team", "chase into jungle"]
    corrections := [("1v5 engage", "Wait for team coordination")] }

/-- `COACHING_SYLLABUS.fighting[0]`. -/
def fightingFundamentals : CoachingPrinciple :=
  { category := "fundamentals"
    keywords := ["block", "punish", "frame", "spacing", "neutral", "combo"]
    validAdvice := ["Block low attacks", "Punish unsafe moves",
      "Maintain proper spacing", "Practice anti-airs", "Learn frame data"]
    invalidPatterns := ["mash buttons", "always attack", "ignore defense"]
    corrections := [("button mashing", "Focus on precise inputs"),
      ("always aggressive", "Mix offense with defense")] }

/-- `COACHING_SYLLABUS.fighting[1]`. -/
def fightingMixups : CoachingPrinciple :=
  { category := "mixups"
    keywords := ["mix", "overhead", "throw", "pressure", "reset", "setup"]
    validAdvice := ["Mix highs and lows", "Use throw techs",
      "Create frame traps", "Reset to neutral"]
    invalidPatterns := ["same combo always", "predictable patterns"]
    corrections := [("repetitive offense", "Vary your attack patterns")] }

/-- `COACHING_SYLLABUS.sport[0]`. -/
def sportPossession : CoachingPrinciple :=
  { category := "possession"
    keywords := ["pass", "possession", "ball", "control", "tempo", "build"]
    validAdvice := ["Maintain possession", "Pass to open players",
      "Control game tempo", "Build from defense", "Switch play wide"]
    invalidPatterns := ["always sprint", "long ball only", "ignore midfield"]
    corrections := [("rush forward", "Build play patiently"),
      ("ignore passing", "Use short passes to maintain control")] }

/-- `COACHING_SYLLABUS.sport[1]`. -/
def sportDefense : CoachingPrinciple :=
  { category := "defense"
    keywords := ["defend", "pressure", "tackle", "cover", "shape", "compact"]
    validAdvice := ["Press high", "Maintain defensive shape",
      "Cover passing lanes", "Track runner"]
    invalidPatterns := ["always tackle", "break formation", "ball watching"]
    corrections := [("dive in", "Stay disciplined in defense"),
      ("chase ball", "Maintain positional discipline")] }

/-- `COACHING_SYLLABUS.sport[2]`. -/
def sportAttacking : CoachingPrinciple :=
  { category := "attacking"
    keywords := ["attack", "cross", "shoot", "run", "overlap", "finish"]
    validAdvice := ["Make overlapping runs", "Cross early",
      "Shoot when in box", "Create width"]
    invalidPatterns := ["shoot from anywhere", "never pass", "static attack"]
    corrections := [("selfish play", "Look for better positioned teammates")] }

/-- `const COACHING_SYLLABUS: GameSyllabus`, as a key/value list. -/
def COACHING_SYLLABUS : List (String × List CoachingPrinciple) :=
  [("moba", [mobaPositioning, mobaItemization, mobaTeamfight]),
   ("fighting", [fightingFundamentals, fightingMixups]),
   ("sport", [sportPossession, sportDefense, sportAttacking])]

/-- The state of one `CoachingVerifier` instance. -/
structure CoachingVerifier where
  currentGameSyllabus : List CoachingPrinciple
  sessionErrors : List String
deriving DecidableEq, Repr

/-- `constructor(gameCategory)` restricted to category strings that are not
property names inherited from `Object.prototype`: on those strings the
bracket read `COACHING_SYLLABUS[gameCategory]` finds an own property or
`undefined`, so `|| []` makes it an own-property lookup defaulting to the
empty list.  The full bracket-read semantics, prototype chain included, is
`jsCurrentGameSyllabus` below; the two agree on every string outside
`objectPrototypeKeys` (`jsCurrentGameSyllabus_eq_mkVerifier`). -/
def mkVerifier (gameCategory : String) : CoachingVerifier :=
  { currentGameSyllabus := (COACHING_SYLLABUS.lookup gameCategory).getD []
    sessionErrors := [] }

/-- The return type of `verifyAdvice`. -/
structure Verdict where
  isValid : Bool
  modifiedAdvice : Option String := none
  category : Option String := none
  confidence : Rat
  warning : Option String := none
deriving DecidableEq, Repr

/-- `private findCorrection(invalidPattern, corrections)`: first correction
value whose key and the matched invalid pattern contain one another
(bidirectional substring test), in map-iteration order. -/
def findCorrection (invalidPattern : String) :
    List (String × String) → Option String
  | [] => none
  | (pattern, correction) :: rest =>
    if includes pattern invalidPattern || includes invalidPattern pattern then
      some correction
    else
      findCorrection invalidPattern rest

/-- `private getGenericAdvice(category)`: object lookup with the
`"Focus on fundamentals"` default. -/
def getGenericAdvice (category : String) : String :=
  if category = "positioning" then "Focus on safe positioning"
  else if category = "itemization" then "Build according to game state"
  else if category = "teamfight" then "Coordinate with your team"
  else if category = "fundamentals" then "Practice your basics"
  else if category = "mixups" then "Vary your approach"
  else if category = "possession" then "Maintain ball control"
  else if category = "defense" then "Stay organized defensively"
  else if category = "attacking" then "Look for scoring opportunities"
  else "Focus on fundamentals"

/-- `private matchesCategory(advice, principle)`: +1 per keyword substring,
+2 per lowercased validAdvice substring, confidence clamped at 1. -/
def matchesCategory (advice : String) (principle : CoachingPrinciple) :
    Bool × Rat :=
  let score : Nat :=
    (principle.keywords.filter (fun k => includes advice k)).length
      + 2 * (principle.validAdvice.filter
          (fun v => includes advice (toLower v))).length
  let maxScore : Nat := principle.keywords.length + principle.validAdvice.length
  let confidence : Rat := min ((score : Rat) / (maxScore : Rat)) 1
  (decide (confidence > 3 / 10), confidence)

/-- `private enhanceAdvice(advice, principle)`. -/
def enhanceAdvice (advice : String) (principle : CoachingPrinciple) : String :=
  let lowerAdvice := toLower advice
  if principle.category = "positioning" && includes lowerAdvice "position" then
    advice ++ " - Consider enemy threat ranges"
  else if principle.category = "itemization" && includes lowerAdvice "buy" then
    advice ++ " - Check enemy builds first"
  else
    advice

/-- `private isGenerallyValid(advice)`. -/
def isGenerallyValid (advice : String) : Bool :=
  let lowerAdvice := toLower advice
  let hasInvalidTerms :=
    ["always", "never", "impossible", "guaranteed"].any
      (fun term => includes lowerAdvice term)
  let hasActionableTerms :=
    ["try", "focus", "consider", "practice", "improve", "work on"].any
      (fun term => includes lowerAdvice term)
  !hasInvalidTerms && hasActionableTerms

/-- `private logError(error)`: appends `` `${now}: ${error}` `` to
`sessionErrors` (the `console.warn` side channel is outside the model). -/
def logError (now error : String) (v : CoachingVerifier) : CoachingVerifier :=
  { v with sessionErrors := v.sessionErrors ++ [now ++ ": " ++ error] }

/-- JavaScript `a || b` for `a : string | undefined`: `undefined` and the
empty string are falsy. -/
def jsOrString (a : Option String) (b : String) : String :=
  match a with
  | some s => if s = "" then b else s
  | none => b

/-- The invalid-pattern pass of `verifyAdvice`: the doubly nested `for` loop,
returning the first `(principle, invalidPattern)` pair whose pattern occurs in
the lowercased advice. -/
def findInvalidMatch (lowerAdvice : String) :
    List CoachingPrinciple → Option (CoachingPrinciple × String)
  | [] => none
  | principle :: rest =>
    match principle.invalidPatterns.find?
        (fun pat => includes lowerAdvice pat) with
    | some pat => some (principle, pat)
    | none => findInvalidMatch lowerAdvice rest

/-- The positive-match pass of `verifyAdvice`: first principle for which
`matchesCategory` reports a match, with its confidence. -/
def findPositiveMatch (lowerAdvice : String) :
    List CoachingPrinciple → Option (CoachingPrinciple × Rat)
  | [] => none
  | principle :: rest =>
    let categoryMatch := matchesCategory lowerAdvice principle
    if categoryMatch.1 then some (principle, categoryMatch.2)
    else findPositiveMatch lowerAdvice rest

/-- `verifyAdvice(advice, gameContext?)`, with the log state threaded
explicitly and `now` the timestamp string `logError` would embed. -/
def verifyAdvice {α : Type} (advice : String) (gameContext : Option α)
    (now : String) (v : CoachingVerifier) : Verdict × CoachingVerifier :=
  let lowerAdvice := toLower advice
  match findInvalidMatch lowerAdvice v.currentGameSyllabus with
  | some (principle, invalidPattern) =>
    let correction := findCorrection invalidPattern principle.corrections
    let v' := logError now ("Invalid advice detected: " ++ advice) v
    ({ isValid := false
       modifiedAdvice := some
         (jsOrString correction (getGenericAdvice principle.category))
       category := some principle.category
       confidence := 3 / 10
       warning := some
         ("Advice contradicts expert principles for " ++ principle.category) },
     v')
  | none =>
    match findPositiveMatch lowerAdvice v.currentGameSyllabus with
    | some (principle, confidence) =>
      ({ isValid := true
         category := some principle.category
         confidence := confidence
         modifiedAdvice := some (enhanceAdvice advice principle) }, v)
    | none =>
      ({ isValid := isGenerallyValid advice
         confidence := 6 / 10
         warning :=
           if isGenerallyValid advice then none
           else some "Advice not aligned with coaching principles" }, v)

/-- The `timeSensitiveTerms` table of `validateTimeSensitivity`. -/
def timeSensitiveTerms : List (List String × Int) :=
  [(["engage", "attack", "push"], 3000),
   (["defend", "retreat", "back"], 5000),
   (["ward", "position", "farm"], 10000)]

/-- The `for` loop of `validateTimeSensitivity` over `timeSensitiveTerms`. -/
def timeSensLoop (timeDiff : Int) (lowerAdvice : String) :
    List (List String × Int) → Bool
  | [] => true
  | (terms, maxDelay) :: rest =>
    if terms.any (fun term => includes lowerAdvice term) then
      decide (timeDiff ≤ maxDelay)
    else
      timeSensLoop timeDiff lowerAdvice rest

/-- `validateTimeSensitivity(advice, timestamp, currentGameTime?)`;
`now` is the value `Date.now()` reads. -/
def validateTimeSensitivity (advice : String) (timestamp : Int)
    (currentGameTime : Option Int) (now : Int) : Bool :=
  let timeDiff := now - timestamp
  let lowerAdvice := toLower advice
  timeSensLoop timeDiff lowerAdvice timeSensitiveTerms

/-- `getSessionErrors()` (returns a copy; copying is identity on values). -/
def getSessionErrors (v : CoachingVerifier) : List String :=
  v.sessionErrors

/-- `resetSession()`. -/
def resetSession (v : CoachingVerifier) : CoachingVerifier :=
  { v with sessionErrors := [] }

/-- What the JavaScript property read `COACHING_SYLLABUS[gameCategory]` can
evaluate to: an own-property principle array, a truthy non-array value
inherited from `Object.prototype` (a function, or the prototype object for
the `__proto__` accessor), or `undefined`. -/
inductive JsLookupResult where
  | ownArray (principles : List CoachingPrinciple)
  | inheritedNonArray (key : String)
  | undef
deriving DecidableEq, Repr

/-- The property names an object literal inherits from `Object.prototype`;
reading any of them yields a truthy non-array value. -/
def objectPrototypeKeys : List String :=
  ["constructor", "hasOwnProperty", "isPrototypeOf", "propertyIsEnumerable",
   "toLocaleString", "toString", "valueOf", "__proto__",
   "__defineGetter__", "__defineSetter__", "__lookupGetter__",
   "__lookupSetter__"]

/-- The bracket read `COACHING_SYLLABUS[gameCategory]` with the prototype
chain: an own property wins, else an inherited `Object.prototype` member,
else `undefined`. -/
def jsIndex (gameCategory : String) : JsLookupResult :=
  match COACHING_SYLLABUS.lookup gameCategory with
  | some principles => JsLookupResult.ownArray principles
  | none =>
    if gameCategory ∈ objectPrototypeKeys then
      JsLookupResult.inheritedNonArray gameCategory
    else
      JsLookupResult.undef

/-- `this.currentGameSyllabus = COACHING_SYLLABUS[gameCategory] || []` under
the full bracket-read semantics: only `undefined` is falsy here (arrays and
the inherited members are truthy), so only `undefined` is replaced by the
empty array. -/
def jsCurrentGameSyllabus (gameCategory : String) : JsLookupResult :=
  match jsIndex gameCategory with
  | JsLookupResult.undef => JsLookupResult.ownArray []
  | r => r

/-- `verifyAdvice` under the refined constructor model: when
`currentGameSyllabus` is not an array, the loop
`for (const principle of this.currentGameSyllabus)` throws a `TypeError`
(functions and plain objects are not iterable); otherwise the call proceeds
as `verifyAdvice`. -/
def verifyAdviceJs {α : Type} (advice : String) (gameContext : Option α)
    (now : String) (syllabus : JsLookupResult) (errors : List String) :
    Except String (Verdict × CoachingVerifier) :=
  match syllabus with
  | JsLookupResult.ownArray principles =>
    Except.ok (verifyAdvice advice gameContext now
      { currentGameSyllabus := principles, sessionErrors := errors })
  | JsLookupResult.inheritedNonArray _ =>
    Except.error "TypeError: this.currentGameSyllabus is not iterable"
  | JsLookupResult.undef =>
    Except.error "TypeError: this.currentGameSyllabus is not iterable"

/-! ### Helper lemmas -/

/-- A character list contains any suffix of itself. -/
theorem listContains_append_self (pre t : List Char) :
    listContains t (pre ++ t) = true := by
  induction pre with
  | nil =>
    cases t with
    | nil => rfl
    | cons c r => simp [listContains]
  | cons c pre ih => simp [listContains, ih]

/-- `(s ++ t).includes(t)` always holds. -/
theorem includes_append_self (s t : String) : includes (s ++ t) t = true := by
  have h : (s ++ t).toList = s.data ++ t.data := rfl
  rw [includes, h]
  exact listContains_append_self s.data t.data

/-- All `(principle, invalidPattern)` pairs of a syllabus, in the order the
doubly nested `for` loop of `verifyAdvice` visits them. -/
def invalidPairs (syllabus : List CoachingPrinciple) :
    List (CoachingPrinciple × String) :=
  syllabus.flatMap (fun p => p.invalidPatterns.map (fun pat => (p, pat)))

/-- Finding a matching pair among one principle's pairs is finding a
matching pattern. -/
theorem find?_pairs_head (s : String) (p : CoachingPrinciple) :
    (p.invalidPatterns.map (fun pat => (p, pat))).find?
        (fun pp => includes s pp.2)
      = (p.invalidPatterns.find? (fun pat => includes s pat)).map
          (fun pat => (p, pat)) := by
  rw [List.find?_map]; rfl

/-- The nested loop finds exactly the first matching pair in list order. -/
theorem findInvalidMatch_eq_find? (s : String) (syl : List CoachingPrinciple) :
    findInvalidMatch s syl
      = (invalidPairs syl).find? (fun pp => includes s pp.2) := by
  induction syl with
  | nil => rfl
  | cons p rest ih =>
    rw [findInvalidMatch]
    rw [show invalidPairs (p :: rest)
        = p.invalidPatterns.map (fun pat => (p, pat)) ++ invalidPairs rest
      from rfl]
    rw [List.find?_append, find?_pairs_head, ← ih]
    cases hf : p.invalidPatterns.find? (fun pat => includes s pat) with
    | some pat => rfl
    | none => rfl

/-- The positive pass finds exactly the first principle whose
`matchesCategory` flag is set, in list order. -/
theorem findPositiveMatch_eq_find? (s : String) (syl : List CoachingPrinciple) :
    findPositiveMatch s syl
      = (syl.find? (fun p => (matchesCategory s p).1)).map
          (fun p => (p, (matchesCategory s p).2)) := by
  induction syl with
  | nil => rfl
  | cons p rest ih =>
    rw [findPositiveMatch]
    by_cases h : (matchesCategory s p).1 = true
    · simp [h]
    · simp only [Bool.not_eq_true] at h
      simp [h, ih]

/-- A correction returned by `findCorrection` is a value of the map. -/
theorem findCorrection_mem (pat : String) (cs : List (String × String))
    (c : String) (h : findCorrection pat cs = some c) : ∃ k, (k, c) ∈ cs := by
  induction cs with
  | nil => simp [findCorrection] at h
  | cons kv rest ih =>
    obtain ⟨k, val⟩ := kv
    rw [findCorrection] at h
    split at h
    · cases Option.some.inj h
      exact ⟨k, List.mem_cons_self _ _⟩
    · obtain ⟨k', hk'⟩ := ih h
      exact ⟨k', List.mem_cons_of_mem _ hk'⟩

/-- When no correction value is the empty string, the JavaScript `||`
fallback is `Option.getD`. -/
theorem jsOrString_findCorrection (pat b : String)
    (cs : List (String × String)) (hc : ∀ kv ∈ cs, kv.2 ≠ "") :
    jsOrString (findCorrection pat cs) b = (findCorrection pat cs).getD b := by
  cases h : findCorrection pat cs with
  | none => rfl
  | some c =>
    obtain ⟨k, hk⟩ := findCorrection_mem pat cs c h
    have hne : c ≠ "" := hc (k, c) hk
    simp [jsOrString, hne]

/-! ### Claim theorems -/

/-- C1: whenever the lowercased advice contains at least one invalid pattern
of the active syllabus, `verifyAdvice` returns the rejection verdict
determined by the first matching `(principle, invalid pattern)` pair in list
order — regardless of any positive keyword or validAdvice matches of earlier
principles — so the positive-match pass and the generic fallback are never
reached. -/
theorem verifyAdvice_invalid_short_circuit {α : Type} (v : CoachingVerifier)
    (gameContext : Option α) (now advice : String)
    (p : CoachingPrinciple) (pat : String)
    (h : (invalidPairs v.currentGameSyllabus).find?
        (fun pp => includes (toLower advice) pp.2) = some (p, pat)) :
    (verifyAdvice advice gameContext now v).1 =
      { isValid := false
        modifiedAdvice := some (jsOrString (findCorrection pat p.corrections)
          (getGenericAdvice p.category))
        category := some p.category
        confidence := 3 / 10
        warning := some
          ("Advice contradicts expert principles for " ++ p.category) } := by
  have h' : findInvalidMatch (toLower advice) v.currentGameSyllabus
      = some (p, pat) := by
    rw [findInvalidMatch_eq_find?]; exact h
  simp [verifyAdvice, h']

/-- C1 witness: a moba text that positively matches the first principle
(positioning) yet contains the third principle's invalid pattern
`"fight without team"`, which wins. -/
theorem verifyAdvice_invalid_short_circuit_witness :
    (invalidPairs (mkVerifier "moba").currentGameSyllabus).find?
        (fun pp => includes
          (toLower "Maintain safe distance and position and fight without team")
          pp.2)
      = some (mobaTeamfight, "fight without team") ∧
    (verifyAdvice "Maintain safe distance and position and fight without team"
        (none : Option Unit) "T" (mkVerifier "moba")).1 =
      { isValid := false
        modifiedAdvice := some
          (jsOrString (findCorrection "fight without team" mobaTeamfight.corrections)
            (getGenericAdvice mobaTeamfight.category))
        category := some mobaTeamfight.category
        confidence := 3 / 10
        warning := some
          ("Advice contradicts expert principles for " ++ mobaTeamfight.category) } :=
  ⟨by decide, verifyAdvice_invalid_short_circuit _ _ _ _ _ _ (by decide)⟩

/-- C3 counterexample: on a moba verifier,
`verifyAdvice "I should always engage without vision"` is a rejection, but
its `modifiedAdvice` is `"Focus on safe positioning"`, not
`"Ward before engaging"` as the claim states: the first matching invalid
pattern is `"always engage"`, which matches no corrections key. -/
theorem moba_vision_example_cex :
    (verifyAdvice "I should always engage without vision" (none : Option Unit)
        "T" (mkVerifier "moba")).1.isValid = false ∧
    (verifyAdvice "I should always engage without vision" (none : Option Unit)
        "T" (mkVerifier "moba")).1.modifiedAdvice
      = some "Focus on safe positioning" ∧
    (verifyAdvice "I should always engage without vision" (none : Option Unit)
        "T" (mkVerifier "moba")).1.modifiedAdvice
      ≠ some "Ward before engaging" := by
  decide

/-- C3 amended: on a moba verifier,
`verifyAdvice "I should always engage without vision"` returns a rejection
whose `modifiedAdvice` is the generic positioning fallback
`"Focus on safe positioning"`, because the first matching invalid pattern is
`"always engage"` (of the positioning principle) and no corrections key of
that principle bidirectionally matches it. -/
theorem moba_vision_example_amended :
    (verifyAdvice "I should always engage without vision" (none : Option Unit)
        "T" (mkVerifier "moba")).1 =
      { isValid := false
        modifiedAdvice := some "Focus on safe positioning"
        category := some "positioning"
        confidence := 3 / 10
        warning := some "Advice contradicts expert principles for positioning" } ∧
    findInvalidMatch (toLower "I should always engage without vision")
        (mkVerifier "moba").currentGameSyllabus
      = some (mobaPositioning, "always engage") ∧
    findCorrection "always engage" mobaPositioning.corrections = none := by
  decide!

/-- C4 counterexample: on a moba verifier, `verifyAdvice "never give up"`
is rejected by the generic fallback (step 4) yet appends nothing to the
session error log. -/
theorem generic_rejection_unlogged_cex :
    (verifyAdvice "never give up" (none : Option Unit) "T"
        (mkVerifier "moba")).1.isValid = false ∧
    getSessionErrors
        ((verifyAdvice "never give up" (none : Option Unit) "T"
          (mkVerifier "moba")).2) = [] := by
  decide!

/-- C4 amended: `verifyAdvice` appends a log entry exactly when the
invalid-pattern pass matches; rejections produced by the generic-fallback
heuristic leave the session error log unchanged. -/
theorem rejection_logging_only_invalid_pass {α : Type} (v : CoachingVerifier)
    (gameContext : Option α) (now advice : String) :
    (verifyAdvice advice gameContext now v).2.sessionErrors =
      if (findInvalidMatch (toLower advice) v.currentGameSyllabus).isSome then
        v.sessionErrors ++ [now ++ ": " ++ ("Invalid advice detected: " ++ advice)]
      else v.sessionErrors := by
  rw [verifyAdvice]
  cases h : findInvalidMatch (toLower advice) v.currentGameSyllabus with
  | some pp =>
    obtain ⟨p, pat⟩ := pp
    simp [h, logError]
  | none =>
    cases h2 : findPositiveMatch (toLower advice) v.currentGameSyllabus with
    | some pc => simp [h, h2]
    | none => simp [h, h2]

/-- C2: an invalid-pattern hit yields `isValid=false`, confidence `0.3`, the
matching principle's category, a warning, and as `modifiedAdvice` the first
bidirectionally matching correction value in map-iteration order, or the
category's fixed generic-advice string when none matches; exactly one log
entry containing the original advice text is appended per call, so two
identical calls append two entries. -/
theorem verifyAdvice_invalid_rejection_log {α : Type} (v : CoachingVerifier)
    (gameContext : Option α) (now now2 advice : String)
    (p : CoachingPrinciple) (pat : String)
    (h : findInvalidMatch (toLower advice) v.currentGameSyllabus = some (p, pat))
    (hc : ∀ kv ∈ p.corrections, kv.2 ≠ "") :
    (verifyAdvice advice gameContext now v).1.isValid = false ∧
    (verifyAdvice advice gameContext now v).1.confidence = 3 / 10 ∧
    (verifyAdvice advice gameContext now v).1.category = some p.category ∧
    (verifyAdvice advice gameContext now v).1.warning.isSome = true ∧
    (verifyAdvice advice gameContext now v).1.modifiedAdvice
      = some ((findCorrection pat p.corrections).getD
          (getGenericAdvice p.category)) ∧
    (verifyAdvice advice gameContext now v).2.sessionErrors
      = v.sessionErrors
          ++ [now ++ ": " ++ ("Invalid advice detected: " ++ advice)] ∧
    includes (now ++ ": " ++ ("Invalid advice detected: " ++ advice)) advice
      = true ∧
    (verifyAdvice advice gameContext now2
        (verifyAdvice advice gameContext now v).2).2.sessionErrors
      = v.sessionErrors
          ++ [now ++ ": " ++ ("Invalid advice detected: " ++ advice),
              now2 ++ ": " ++ ("Invalid advice detected: " ++ advice)] := by
  have he : verifyAdvice advice gameContext now v =
      ({ isValid := false
         modifiedAdvice := some (jsOrString (findCorrection pat p.corrections)
           (getGenericAdvice p.category))
         category := some p.category
         confidence := 3 / 10
         warning := some
           ("Advice contradicts expert principles for " ++ p.category) },
       logError now ("Invalid advice detected: " ++ advice) v) := by
    simp [verifyAdvice, h]
  have hw : findInvalidMatch (toLower advice)
      (logError now ("Invalid advice detected: " ++ advice) v).currentGameSyllabus
      = some (p, pat) := h
  have he2 : verifyAdvice advice gameContext now2
      (logError now ("Invalid advice detected: " ++ advice) v) =
      ({ isValid := false
         modifiedAdvice := some (jsOrString (findCorrection pat p.corrections)
           (getGenericAdvice p.category))
         category := some p.category
         confidence := 3 / 10
         warning := some
           ("Advice contradicts expert principles for " ++ p.category) },
       logError now2 ("Invalid advice detected: " ++ advice)
         (logError now ("Invalid advice detected: " ++ advice) v)) := by
    simp [verifyAdvice, hw]
  have hinc : includes (now ++ ": " ++ ("Invalid advice detected: " ++ advice))
      advice = true := by
    rw [← String.append_assoc]
    exact includes_append_self _ _
  refine ⟨by rw [he], by rw [he], by rw [he], by rw [he]; rfl, ?_, ?_, hinc, ?_⟩
  · rw [he]
    exact congrArg some (jsOrString_findCorrection pat _ p.corrections hc)
  · rw [he]; simp [logError]
  · simp only [he]
    simp only [he2]
    simp [logError, List.append_assoc]

/-- C2 witness: `"you should always same build"` on a moba verifier hits the
itemization invalid pattern; no corrections key matches, so the generic
itemization advice is substituted, and two calls append two log entries. -/
theorem verifyAdvice_invalid_rejection_log_witness :
    findInvalidMatch (toLower "you should always same build")
        (mkVerifier "moba").currentGameSyllabus
      = some (mobaItemization, "always same build") ∧
    (∀ kv ∈ mobaItemization.corrections, kv.2 ≠ "") ∧
    (verifyAdvice "you should always same build" (none : Option Unit) "T1"
        (mkVerifier "moba")).1.modifiedAdvice
      = some ((findCorrection "always same build" mobaItemization.corrections).getD
          (getGenericAdvice mobaItemization.category)) ∧
    (verifyAdvice "you should always same build" (none : Option Unit) "T2"
        (verifyAdvice "you should always same build" (none : Option Unit) "T1"
          (mkVerifier "moba")).2).2.sessionErrors
      = (mkVerifier "moba").sessionErrors
          ++ ["T1" ++ ": " ++ ("Invalid advice detected: " ++ "you should always same build"),
              "T2" ++ ": " ++ ("Invalid advice detected: " ++ "you should always same build")] :=
  ⟨by decide, by decide,
    (verifyAdvice_invalid_rejection_log (mkVerifier "moba") (none : Option Unit)
      "T1" "T2" "you should always same build" mobaItemization
      "always same build" (by decide) (by decide)).2.2.2.2.1,
    (verifyAdvice_invalid_rejection_log (mkVerifier "moba") (none : Option Unit)
      "T1" "T2" "you should always same build" mobaItemization
      "always same build" (by decide) (by decide)).2.2.2.2.2.2.2⟩

/-- C5: with no invalid-pattern hit, `verifyAdvice` accepts the first
principle (in list order) whose confidence strictly exceeds `0.3`, where
confidence is `min(score / (|keywords| + |validAdvice|), 1)` with `+1` per
keyword substring and `+2` per lowercased validAdvice substring, and returns
`isValid=true`, that category, that confidence, no warning, and the
enhancement of the original text, which appends a fixed clause exactly for
(positioning, "position") and (itemization, "buy") and is otherwise the
identity. -/
theorem verifyAdvice_positive_pass {α : Type} (v : CoachingVerifier)
    (gameContext : Option α) (now advice : String)
    (p : CoachingPrinciple) (c : Rat)
    (hInv : findInvalidMatch (toLower advice) v.currentGameSyllabus = none)
    (hPos : findPositiveMatch (toLower advice) v.currentGameSyllabus
      = some (p, c)) :
    (verifyAdvice advice gameContext now v).1 =
      { isValid := true
        category := some p.category
        confidence := c
        modifiedAdvice := some (enhanceAdvice advice p)
        warning := none } ∧
    c = min ((((p.keywords.filter
            (fun k => includes (toLower advice) k)).length
          + 2 * (p.validAdvice.filter
            (fun va => includes (toLower advice) (toLower va))).length : Nat) : Rat)
        / ((p.keywords.length + p.validAdvice.length : Nat) : Rat)) 1 ∧
    (3 / 10 : Rat) < c ∧
    (∃ pre post, v.currentGameSyllabus = pre ++ p :: post ∧
      ∀ q ∈ pre, (matchesCategory (toLower advice) q).1 = false) ∧
    ((p.category = "positioning" ∧ includes (toLower advice) "position" = true) →
      enhanceAdvice advice p = advice ++ " - Consider enemy threat ranges") ∧
    ((p.category = "itemization" ∧ includes (toLower advice) "buy" = true) →
      enhanceAdvice advice p = advice ++ " - Check enemy builds first") ∧
    (¬(p.category = "positioning" ∧ includes (toLower advice) "position" = true) →
      ¬(p.category = "itemization" ∧ includes (toLower advice) "buy" = true) →
      enhanceAdvice advice p = advice) := by
  have hq := hPos
  rw [findPositiveMatch_eq_find?, Option.map_eq_some'] at hq
  obtain ⟨q, hfind, hpair⟩ := hq
  obtain ⟨rfl, rfl⟩ : q = p ∧ (matchesCategory (toLower advice) q).2 = c := by
    have h1 := congrArg Prod.fst hpair
    have h2 := congrArg Prod.snd hpair
    exact ⟨h1, h2⟩
  have hflag : (matchesCategory (toLower advice) q).1 = true := by
    have hf := List.find?_some hfind
    exact hf
  refine ⟨by simp [verifyAdvice, hInv, hPos], rfl, ?_, ?_, ?_, ?_, ?_⟩
  · have := of_decide_eq_true hflag
    exact this
  · rw [List.find?_eq_some] at hfind
    obtain ⟨-, pre, post, hsplit, hall⟩ := hfind
    exact ⟨pre, post, hsplit, fun r hr => by
      have := hall r hr
      simpa using this⟩
  · rintro ⟨h1, h2⟩
    simp [enhanceAdvice, h1, h2]
  · rintro ⟨h1, h2⟩
    have hne : decide (("itemization" : String) = "positioning") = false := by
      decide
    simp [enhanceAdvice, h1, h2, hne]
  · intro h1 h2
    by_cases hc1 : q.category = "positioning"
    · have hb : includes (toLower advice) "position" = false := by
        cases hb' : includes (toLower advice) "position" with
        | true => exact absurd ⟨hc1, hb'⟩ h1
        | false => rfl
      simp [enhanceAdvice, hc1, hb]
    · by_cases hc2 : q.category = "itemization"
      · have hb : includes (toLower advice) "buy" = false := by
          cases hb' : includes (toLower advice) "buy" with
          | true => exact absurd ⟨hc2, hb'⟩ h2
          | false => rfl
        have hne : decide (("itemization" : String) = "positioning") = false := by
          decide
        simp [enhanceAdvice, hc2, hb, hne]
      · have d1 : decide (q.category = "positioning") = false :=
          decide_eq_false hc1
        have d2 : decide (q.category = "itemization") = false :=
          decide_eq_false hc2
        simp [enhanceAdvice, d1, d2]

/-- C5 witness: `"Ward river bushes to get vision"` on a moba verifier is
accepted by the positioning principle with confidence `4/11`. -/
theorem verifyAdvice_positive_pass_witness :
    findInvalidMatch (toLower "Ward river bushes to get vision")
        (mkVerifier "moba").currentGameSyllabus = none ∧
    findPositiveMatch (toLower "Ward river bushes to get vision")
        (mkVerifier "moba").currentGameSyllabus
      = some (mobaPositioning, 4 / 11) ∧
    (verifyAdvice "Ward river bushes to get vision" (none : Option Unit) "T"
        (mkVerifier "moba")).1 =
      { isValid := true
        category := some mobaPositioning.category
        confidence := 4 / 11
        modifiedAdvice := some
          (enhanceAdvice "Ward river bushes to get vision" mobaPositioning)
        warning := none } :=
  ⟨by decide, by decide!,
    (verifyAdvice_positive_pass (mkVerifier "moba") (none : Option Unit) "T"
      "Ward river bushes to get vision" mobaPositioning (4 / 11)
      (by decide) (by decide!)).1⟩

/-- C6: with neither an invalid-pattern hit nor a positive match,
`verifyAdvice` accepts iff the lowercased text contains an actionable term
and no absolute term; the verdict has confidence `0.6`, no `modifiedAdvice`,
no `category`, and a warning exactly when the heuristic rejects. -/
theorem verifyAdvice_generic_fallback {α : Type} (v : CoachingVerifier)
    (gameContext : Option α) (now advice : String)
    (hInv : findInvalidMatch (toLower advice) v.currentGameSyllabus = none)
    (hPos : findPositiveMatch (toLower advice) v.currentGameSyllabus = none) :
    ((verifyAdvice advice gameContext now v).1.isValid = true ↔
      ((∃ t ∈ (["try", "focus", "consider", "practice", "improve",
          "work on"] : List String), includes (toLower advice) t = true) ∧
        ∀ t ∈ (["always", "never", "impossible", "guaranteed"] : List String),
          includes (toLower advice) t = false)) ∧
    (verifyAdvice advice gameContext now v).1.confidence = 6 / 10 ∧
    (verifyAdvice advice gameContext now v).1.modifiedAdvice = none ∧
    (verifyAdvice advice gameContext now v).1.category = none ∧
    ((verifyAdvice advice gameContext now v).1.warning = none ↔
      (verifyAdvice advice gameContext now v).1.isValid = true) := by
  have he : verifyAdvice advice gameContext now v =
      ({ isValid := isGenerallyValid advice
         confidence := 6 / 10
         warning := if isGenerallyValid advice then none
           else some "Advice not aligned with coaching principles" }, v) := by
    simp [verifyAdvice, hInv, hPos]
  refine ⟨?_, by rw [he], by rw [he], by rw [he], ?_⟩
  · rw [he]
    show isGenerallyValid advice = true ↔ _
    rw [isGenerallyValid]
    simp only [Bool.and_eq_true, Bool.not_eq_true', List.any_eq_true,
      List.any_eq_false, Bool.not_eq_true]
    constructor
    · rintro ⟨hni, ha⟩
      exact ⟨ha, fun t ht => hni t ht⟩
    · rintro ⟨ha, hni⟩
      exact ⟨fun t ht => hni t ht, ha⟩
  · rw [he]
    cases hg : isGenerallyValid advice <;> simp [hg]

/-- C6 witness: `"try to last hit more"` on a moba verifier reaches the
generic fallback and is accepted. -/
theorem verifyAdvice_generic_fallback_witness :
    findInvalidMatch (toLower "try to last hit more")
        (mkVerifier "moba").currentGameSyllabus = none ∧
    findPositiveMatch (toLower "try to last hit more")
        (mkVerifier "moba").currentGameSyllabus = none ∧
    ((verifyAdvice "try to last hit more" (none : Option Unit) "T"
        (mkVerifier "moba")).1.isValid = true ↔
      ((∃ t ∈ (["try", "focus", "consider", "practice", "improve",
          "work on"] : List String),
          includes (toLower "try to last hit more") t = true) ∧
        ∀ t ∈ (["always", "never", "impossible", "guaranteed"] : List String),
          includes (toLower "try to last hit more") t = false)) :=
  ⟨by decide, by decide!,
    (verifyAdvice_generic_fallback (mkVerifier "moba") (none : Option Unit) "T"
      "try to last hit more" (by decide) (by decide!)).1⟩

/-- The tier loop returns the verdict of the first tier whose terms match,
and `true` when none does. -/
theorem timeSensLoop_eq_find? (timeDiff : Int) (s : String)
    (l : List (List String × Int)) :
    timeSensLoop timeDiff s l =
      match l.find? (fun tc => tc.1.any (fun term => includes s term)) with
      | some tc => decide (timeDiff ≤ tc.2)
      | none => true := by
  induction l with
  | nil => rfl
  | cons tc rest ih =>
    obtain ⟨terms, maxDelay⟩ := tc
    rw [timeSensLoop]
    by_cases h : terms.any (fun term => includes s term) = true
    · rw [if_pos h]
      simp only [List.find?, h]
    · have h' : (terms.any fun term => includes s term) = false := by
        cases hb : terms.any fun term => includes s term
        · rfl
        · exact absurd hb h
      rw [if_neg h]
      simp only [List.find?, h']
      exact ih

/-- C7: `validateTimeSensitivity` classifies advice by the first tier, in
the fixed order immediate (3000 ms), reactive (5000 ms), positional
(10000 ms), whose terms occur in the lowercased text, and accepts iff the
elapsed time is within that tier's maximum; `"Engage now"` is timely at
2999 ms elapsed and stale at 3001 ms, while `"Great rotation"` is timely at
every delay. -/
theorem validateTimeSensitivity_tiers (advice : String) (timestamp : Int)
    (currentGameTime : Option Int) (now : Int) :
    (validateTimeSensitivity advice timestamp currentGameTime now =
      match timeSensitiveTerms.find?
          (fun tc => tc.1.any (fun term => includes (toLower advice) term)) with
      | some tc => decide (now - timestamp ≤ tc.2)
      | none => true) ∧
    validateTimeSensitivity "Engage now" 0 currentGameTime 2999 = true ∧
    validateTimeSensitivity "Engage now" 0 currentGameTime 3001 = false ∧
    validateTimeSensitivity "Great rotation" timestamp currentGameTime now
      = true := by
  refine ⟨?_, ?_, ?_, ?_⟩
  · exact timeSensLoop_eq_find? (now - timestamp) (toLower advice)
      timeSensitiveTerms
  · show timeSensLoop ((2999 : Int) - 0) (toLower "Engage now")
      timeSensitiveTerms = true
    decide
  · show timeSensLoop ((3001 : Int) - 0) (toLower "Engage now")
      timeSensitiveTerms = false
    decide
  · show timeSensLoop (now - timestamp) (toLower "Great rotation")
      timeSensitiveTerms = true
    rw [timeSensLoop_eq_find?]
    rw [show timeSensitiveTerms.find?
        (fun tc => tc.1.any (fun term =>
          includes (toLower "Great rotation") term)) = none from by decide]

/-- Off the inherited `Object.prototype` property names, the full
bracket-read constructor agrees with the own-property model `mkVerifier`. -/
theorem jsCurrentGameSyllabus_eq_mkVerifier (cat : String)
    (hp : cat ∉ objectPrototypeKeys) :
    jsCurrentGameSyllabus cat
      = JsLookupResult.ownArray (mkVerifier cat).currentGameSyllabus := by
  cases hlook : COACHING_SYLLABUS.lookup cat with
  | some principles =>
    simp [jsCurrentGameSyllabus, jsIndex, hlook, mkVerifier]
  | none =>
    simp [jsCurrentGameSyllabus, jsIndex, hlook, hp, mkVerifier]

/-- C8 counterexample: `"constructor"` is none of the three supported
identifiers, yet the bracket read finds the truthy inherited
`Object.prototype.constructor`, so `|| []` is skipped, the principle list is
not empty, and the next `verifyAdvice` call throws a `TypeError` at its
`for...of` loop instead of resolving via the generic fallback. -/
theorem unknown_category_prototype_cex :
    ("constructor" : String) ≠ "moba" ∧
    ("constructor" : String) ≠ "fighting" ∧
    ("constructor" : String) ≠ "sport" ∧
    jsCurrentGameSyllabus "constructor"
      = JsLookupResult.inheritedNonArray "constructor" ∧
    jsCurrentGameSyllabus "constructor" ≠ JsLookupResult.ownArray [] ∧
    verifyAdviceJs "try to improve map control" (none : Option Unit) "T"
        (jsCurrentGameSyllabus "constructor") []
      = Except.error "TypeError: this.currentGameSyllabus is not iterable" := by
  refine ⟨by decide, by decide, by decide, by decide, by decide, rfl⟩

/-- C8 amended: for every game-category string that is neither one of the
three supported identifiers nor a property name inherited from
`Object.prototype`, construction raises no error and yields an empty
principle list, and every subsequent `verifyAdvice` call raises no error and
resolves via the generic-fallback heuristic only, leaving the state
unchanged. -/
theorem unknown_category_generic_only_amended (cat : String)
    (h1 : cat ≠ "moba") (h2 : cat ≠ "fighting") (h3 : cat ≠ "sport")
    (hp : cat ∉ objectPrototypeKeys) :
    jsCurrentGameSyllabus cat = JsLookupResult.ownArray [] ∧
    (mkVerifier cat).currentGameSyllabus = [] ∧
    ∀ (α : Type) (gameContext : Option α) (now advice : String)
      (errs : List String),
      verifyAdviceJs advice gameContext now (jsCurrentGameSyllabus cat) errs =
      Except.ok
        ({ isValid := isGenerallyValid advice
           confidence := 6 / 10
           modifiedAdvice := none
           category := none
           warning := if isGenerallyValid advice then none
             else some "Advice not aligned with coaching principles" },
         { currentGameSyllabus := []
           sessionErrors := errs }) := by
  have b1 : (cat == "moba") = false := beq_eq_false_iff_ne.mpr h1
  have b2 : (cat == "fighting") = false := beq_eq_false_iff_ne.mpr h2
  have b3 : (cat == "sport") = false := beq_eq_false_iff_ne.mpr h3
  have hlook : COACHING_SYLLABUS.lookup cat = none := by
    simp [COACHING_SYLLABUS, List.lookup, b1, b2, b3]
  have hjs : jsCurrentGameSyllabus cat = JsLookupResult.ownArray [] := by
    simp [jsCurrentGameSyllabus, jsIndex, hlook, hp]
  refine ⟨hjs, by simp [mkVerifier, hlook], ?_⟩
  intro α gameContext now advice errs
  rw [hjs]
  simp [verifyAdviceJs, verifyAdvice, findInvalidMatch, findPositiveMatch]

/-- C8 witness at the unsupported, non-inherited category `"rts"`. -/
theorem unknown_category_generic_only_amended_witness :
    ("rts" : String) ≠ "moba" ∧
    ("rts" : String) ∉ objectPrototypeKeys ∧
    jsCurrentGameSyllabus "rts" = JsLookupResult.ownArray [] ∧
    (mkVerifier "rts").currentGameSyllabus = [] :=
  ⟨by decide, by decide,
    (unknown_category_generic_only_amended "rts" (by decide) (by decide)
      (by decide) (by decide)).1,
    (unknown_category_generic_only_amended "rts" (by decide) (by decide)
      (by decide) (by decide)).2.1⟩

/-- C9: `resetSession` empties the session error log and changes nothing
else: the syllabus binding is untouched, so every later verdict equals the
verdict the same call would produce before the reset. -/
theorem resetSession_frame (v : CoachingVerifier) :
    getSessionErrors (resetSession v) = [] ∧
    (resetSession v).currentGameSyllabus = v.currentGameSyllabus ∧
    ∀ (α : Type) (gameContext : Option α) (now advice : String),
      (verifyAdvice advice gameContext now (resetSession v)).1
        = (verifyAdvice advice gameContext now v).1 := by
  refine ⟨rfl, rfl, ?_⟩
  intro α gameContext now advice
  cases h : findInvalidMatch (toLower advice) v.currentGameSyllabus with
  | some pp =>
    obtain ⟨p, pat⟩ := pp
    have h' : findInvalidMatch (toLower advice)
        (resetSession v).currentGameSyllabus = some (p, pat) := h
    simp [verifyAdvice, h, h']
  | none =>
    have h' : findInvalidMatch (toLower advice)
        (resetSession v).currentGameSyllabus = none := h
    cases h2 : findPositiveMatch (toLower advice) v.currentGameSyllabus with
    | some pc =>
      obtain ⟨p, c⟩ := pc
      have h2' : findPositiveMatch (toLower advice)
          (resetSession v).currentGameSyllabus = some (p, c) := h2
      simp [verifyAdvice, h, h', h2, h2']
    | none =>
      have h2' : findPositiveMatch (toLower advice)
          (resetSession v).currentGameSyllabus = none := h2
      simp [verifyAdvice, h, h', h2, h2']

/-- C10: the optional context inputs are dead: `verifyAdvice` returns the
same verdict and the same state for any two `gameContext` values of any
types, and `validateTimeSensitivity` returns the same boolean for any two
`currentGameTime` values. -/
theorem context_arguments_ignored {α β : Type} (ctx1 : Option α)
    (ctx2 : Option β) (advice now : String) (v : CoachingVerifier)
    (t1 t2 : Option Int) (timestamp nowMs : Int) :
    verifyAdvice advice ctx1 now v = verifyAdvice advice ctx2 now v ∧
    validateTimeSensitivity advice timestamp t1 nowMs
      = validateTimeSensitivity advice timestamp t2 nowMs :=
  ⟨rfl, rfl⟩
